import Mathlib

set_option linter.unusedVariables false

/-!
Verification of the Conway's Game of Life engine in `conway.py` / `webgpu.py`:
the CPU reference update (`ConwayUpdate.update`), the WGSL compute kernel
(`GPUConwayUpdate.get_shader_code`), the double-buffered dispatch
(`GPUSimulationModel.update` / `reset`) and the seeding rules (`RandomInit`).
-/

namespace Automata

/-- A grid is a function from (x, y) cell coordinates to the cell value.
Only coordinates with both components below the grid dimension N are
meaningful; the update reads only wrapped (hence in-range) indices. -/
def Grid : Type := Nat → Nat → Nat

/-- All cells of the N×N portion of the grid are 0 or 1. -/
def Cells01 (N : Nat) (g : Grid) : Prop :=
  ∀ x y, x < N → y < N → g x y = 0 ∨ g x y = 1

/-! ## CPU reference update (`conway.py`, `ConwayUpdate.update`) -/

/-- Python's `%` on integers (also numpy's wrapped indexing used by
`np.roll`): Lean's `Int.emod`, non-negative for a positive modulus. -/
def pyMod (a : Int) (n : Nat) : Int := a % (n : Int)

/-- The index along an axis of length `N` that `np.roll(s, i, axis)` reads at
position `a`: rolling by `i` shifts values forward, so position `a` holds the
value originally at `(a - i) mod N`. -/
def rollIdx (N : Nat) (a : Nat) (i : Int) : Nat := (pyMod ((a : Int) - i) N).toNat

/-- The offset pairs `(i, j)` of the generator in `ConwayUpdate.update`,
in Python iteration order, with `(0, 0)` excluded by the `if` filter. -/
def cpuOffsets : List (Int × Int) :=
  [(-1,-1),(-1,0),(-1,1),(0,-1),(0,1),(1,-1),(1,0),(1,1)]

/-- `neighbors_count` of `ConwayUpdate.update`, evaluated at one cell: the sum
over the eight rolled copies `np.roll(np.roll(s, i, 0), j, 1)` of the state. -/
def neighborsCount (N : Nat) (g : Grid) (x y : Nat) : Nat :=
  (cpuOffsets.map (fun d => g (rollIdx N x d.1) (rollIdx N y d.2))).sum

/-- One output cell of `ConwayUpdate.update`:
`(neighbors_count == 3) | (current_state & (neighbors_count == 2))`, with
numpy's elementwise bitwise `&` / `|` acting on the 0/1-coded booleans. -/
def conwayCell (s c : Nat) : Nat :=
  (if c = 3 then 1 else 0) ||| (s &&& (if c = 2 then 1 else 0))

/-- `ConwayUpdate.update` on an N×N grid. -/
def cpuUpdate (N : Nat) (g : Grid) : Grid :=
  fun x y => conwayCell (g x y) (neighborsCount N g x y)

/-! ## GPU kernel (`webgpu.py`, `GPUConwayUpdate.get_shader_code`) -/

/-- WGSL `%` on `i32` is the truncated remainder. -/
def wgslRem (a b : Int) : Int := Int.tmod a b

/-- The shader's `fn wrap(a, b) = ((a % b) + b) % b`. -/
def wrap (a b : Int) : Int := wgslRem (wgslRem a b + b) b

/-- The `(dx, dy)` pairs of the shader's double loop in iteration order
(outer `dy`, inner `dx`), with `(0, 0)` skipped by the `continue`. -/
def gpuOffsets : List (Int × Int) :=
  [(-1,-1),(0,-1),(1,-1),(-1,0),(1,0),(-1,1),(0,1),(1,1)]

/-- The shader's `neighbor_idx` for offset `(dx, dy)` at cell `(x, y)`:
`nx + ny * N` with `nx = wrap(i32(x)+dx, i32(N))`, `ny = wrap(i32(y)+dy, i32(N))`. -/
def neighborIdx (N x y : Nat) (d : Int × Int) : Nat :=
  (wrap ((x : Int) + d.1) N).toNat + (wrap ((y : Int) + d.2) N).toNat * N

/-- `live_neighbors` of the shader at cell `(x, y)`, reading the flat
`in_state` array. -/
def liveNeighbors (N : Nat) (inS : Nat → Nat) (x y : Nat) : Nat :=
  (gpuOffsets.map (fun d => inS (neighborIdx N x y d))).sum

/-- The shader's `new_state` branches (webgpu.py lines 56-61). -/
def gpuCell (s c : Nat) : Nat :=
  if s = 1 ∧ (c = 2 ∨ c = 3) then 1
  else if s = 0 ∧ c = 3 then 1
  else 0

/-- One invocation `main(global_id = (x, y, _))`: `none` when the bounds check
`x >= N || y >= N` returns without writing, otherwise the linear index
`x + y*N` written into `out_state` together with the value written. -/
def gpuKernel (N : Nat) (inS : Nat → Nat) (x y : Nat) : Option (Nat × Nat) :=
  if N ≤ x ∨ N ≤ y then none
  else some (x + y * N, gpuCell (inS (x + y * N)) (liveNeighbors N inS x y))

/-- An N×N grid flattened the way the u32 state buffers store it: the value
of cell (x, y) sits at linear index `x + y*N`. -/
def flatten (N : Nat) (g : Grid) : Nat → Nat := fun i => g (i % N) (i / N)

/-- The grid-to-grid function one full GPU dispatch computes on the in-range
cells (out-of-range invocations write nothing). -/
def gpuUpdate (N : Nat) (g : Grid) : Grid :=
  fun x y =>
    match gpuKernel N (flatten N g) x y with
    | some (_, v) => v
    | none => 0

/-! ## The spec's statement of the rule

These two definitions follow the specification's words ("Let `live` = sum of
the 8 toroidally-wrapped neighbors' values"; "`next[x,y] = 1` if `live == 3`,
or if `current[x,y] == 1 and live == 2`; else `0`"), to be compared with the
two code-derived updates above. -/

/-- Left toroidal neighbor index `(a - 1) mod N`, written on Nat for `a < N`. -/
def lft (N a : Nat) : Nat := (a + (N - 1)) % N

/-- Right toroidal neighbor index `(a + 1) mod N`. -/
def rgt (N a : Nat) : Nat := (a + 1) % N

/-- The spec's `live`: sum of the values of the 8 toroidally-wrapped
neighbors of (x, y), indices taken mod N on both axes, the cell itself
excluded. -/
def specLive (N : Nat) (g : Grid) (x y : Nat) : Nat :=
  g (lft N x) (lft N y) + g x (lft N y) + g (rgt N x) (lft N y) +
  g (lft N x) y + g (rgt N x) y +
  g (lft N x) (rgt N y) + g x (rgt N y) + g (rgt N x) (rgt N y)

/-- The spec's update rule: the next value is 1 exactly when `live = 3`, or
the cell is 1 and `live = 2`; otherwise 0. -/
def specNext (N : Nat) (g : Grid) : Grid :=
  fun x y =>
    if specLive N g x y = 3 ∨ (g x y = 1 ∧ specLive N g x y = 2) then 1 else 0

/-! ## Double buffering (`GPUSimulationModel.update`, `reset`, controller) -/

/-- The two device-resident state buffers created by `initialize_webgpu`. -/
inductive Buf
  | A
  | B
deriving DecidableEq

/-- The `(read, write)` buffer selection of `GPUSimulationModel.update` for a
given generation index: an even `iteration` sets `bind_group_a_to_b` (binding
0, the read-only storage, is buffer A; binding 1, the read-write storage, is
buffer B), an odd one sets `bind_group_b_to_a`. -/
def pairFor (iteration : Nat) : Buf × Buf :=
  if iteration % 2 = 0 then (Buf.A, Buf.B) else (Buf.B, Buf.A)

/-- The buffer the dispatch of generation `iteration` reads. -/
def readBuf (iteration : Nat) : Buf := (pairFor iteration).1

/-- The buffer the dispatch of generation `iteration` writes. -/
def writeBuf (iteration : Nat) : Buf := (pairFor iteration).2

/-- The buffer `update` copies into the staging buffer after the dispatch
(webgpu.py lines 148-151): B for an even iteration, A for an odd one. -/
def stagingSource (iteration : Nat) : Buf :=
  if iteration % 2 = 0 then Buf.B else Buf.A

/-- The state `GPUSimulationModel.reset` touches (cell data in the flat u32
layout), together with the generation counter kept by the controller. -/
structure EngineState where
  bufA : Nat → Nat
  bufB : Nat → Nat
  state : Nat → Nat
  iteration : Nat

/-- `GPUSimulationModel.reset`: writes the freshly drawn grid into buffer A,
zero-fills buffer B, and stores the new grid as the host-side state. The
model holds no generation counter, so none is touched here. -/
def modelReset (s : EngineState) (newState : Nat → Nat) : EngineState :=
  { s with bufA := newState, bufB := fun _ => 0, state := newState }

/-- The controller's restart path (`GPUSimulationController.handle_events`,
space key): `self.model.reset()` followed by `self.iteration = 0`. -/
def controllerReset (s : EngineState) (newState : Nat → Nat) : EngineState :=
  { modelReset s newState with iteration := 0 }

/-! ## Dispatch sizing (`GPUSimulationModel.update`) -/

/-- `dispatch_workgroups((self.size + 7) // 8, (self.size + 7) // 8)`: the
number of 8×8 tiles along each axis. -/
def numWorkgroups (N : Nat) : Nat := (N + 7) / 8

/-- With `@workgroup_size(8, 8)`, the global invocation ids of one dispatch
range over `[0, 8 * numWorkgroups N)` on each axis. -/
def gridExtent (N : Nat) : Nat := 8 * numWorkgroups N

/-! ## Seeding (`RandomInit` in conway.py and in webgpu.py) -/

/-- conway.py `RandomInit.rule`:
`np.random.choice([0, 1], size=size, p=[1 - self.p, self.p])`, fed by a
stream `u` of uniform draws from [0, 1). numpy first validates the weight
vector: a negative entry (so `p < 0` or `p > 1`) raises `ValueError`;
otherwise cell `i` is the index found by searching the cumulative weights
`[1 - p, 1]` for the draw, i.e. 1 exactly when the draw is at least `1 - p`,
which happens with probability `p`. -/
def cpuRandomInit (p : ℚ) (size : Nat × Nat) (u : Nat → ℚ) :
    Except String (List Nat) :=
  if p < 0 ∨ 1 < p then Except.error "probabilities are not non-negative"
  else Except.ok ((List.range (size.1 * size.2)).map
    (fun i => if u i < 1 - p then 0 else 1))

/-- webgpu.py `RandomInit.rule`:
`np.random.randint(0, 2, size=(size * size), dtype=np.uint32)`. The stored
probability `self.p` is never consulted; each cell is an independent uniform
draw from {0, 1} (the low bit of the rng stream). `randint` raises no error
here for any Python int `size`, since the element count `size * size` is
never negative. -/
def gpuRandomInit (p : ℚ) (size : Int) (rng : Nat → Nat) :
    Except String (List Nat) :=
  Except.ok ((List.range (size * size).toNat).map (fun i => rng i % 2))

/-- `GPUSimulationModel.__init__`: stores the configuration and seeds
`self.state = init_rule.rule(size)`. It adds no validation of `size` or `p`
of its own; it fails only if the seeding rule does. -/
def gpuModelInit (p : ℚ) (size : Int) (rng : Nat → Nat) :
    Except String (List Nat) :=
  gpuRandomInit p size rng

/-! ## Order-explicit form of the reference update (for the no-self-overwrite
property: the output is written cell by cell in an arbitrary order, each
value computed from the input buffer only) -/

/-- Write value `v` to cell `(px, py)` of the output buffer. -/
def writeCell (out : Grid) (px py v : Nat) : Grid :=
  fun x y => if x = px ∧ y = py then v else out x y

/-- Process one cell: compute its next value from the *input* buffer (the
first component, never written) and store it in the output buffer. -/
def stepCell (N : Nat) (st : Grid × Grid) (pos : Nat × Nat) : Grid × Grid :=
  (st.1,
   writeCell st.2 pos.1 pos.2
     (conwayCell (st.1 pos.1 pos.2) (neighborsCount N st.1 pos.1 pos.2)))

/-- The order-explicit reference update: process the cells in the given
order, starting from the input buffer `g` and an arbitrary initial output
buffer `out0`. -/
def orderedUpdate (N : Nat) (g out0 : Grid) (order : List (Nat × Nat)) :
    Grid × Grid :=
  order.foldl (stepCell N) (g, out0)

/-! ## Blinker configurations -/

/-- Horizontal blinker: live cells (1,2), (2,2), (3,2), all else dead. -/
def blinkH : Grid := fun x y => if y = 2 ∧ (x = 1 ∨ x = 2 ∨ x = 3) then 1 else 0

/-- Vertical blinker: live cells (2,1), (2,2), (2,3), all else dead. -/
def blinkV : Grid := fun x y => if x = 2 ∧ (y = 1 ∨ y = 2 ∨ y = 3) then 1 else 0

/-- Toroidal translation of a grid by `(dx, dy)`: every horizontal blinker
position on the N×N torus is `shiftG N dx dy blinkH` for suitable offsets. -/
def shiftG (N dx dy : Nat) (g : Grid) : Grid :=
  fun x y => g ((x + dx) % N) ((y + dy) % N)

/-- Swap the two axes of a grid. -/
def transposeG (g : Grid) : Grid := fun x y => g y x

/-! ## Index bridging lemmas -/

lemma lft_lt {N : Nat} (hN : 0 < N) (a : Nat) : lft N a < N := Nat.mod_lt _ hN

lemma rgt_lt {N : Nat} (hN : 0 < N) (a : Nat) : rgt N a < N := Nat.mod_lt _ hN

lemma lft_of_pos {N a : Nat} (ha : 0 < a) (haN : a < N) : lft N a = a - 1 := by
  unfold lft
  have h : a + (N - 1) = (a - 1) + N := by omega
  rw [h, Nat.add_mod_right, Nat.mod_eq_of_lt (by omega)]

lemma lft_zero {N : Nat} (hN : 0 < N) : lft N 0 = N - 1 := by
  unfold lft
  rw [Nat.zero_add, Nat.mod_eq_of_lt (by omega)]

lemma rgt_of_lt {N a : Nat} (h : a + 1 < N) : rgt N a = a + 1 := by
  unfold rgt; exact Nat.mod_eq_of_lt h

lemma rgt_top {N a : Nat} (h : a + 1 = N) : rgt N a = 0 := by
  unfold rgt; rw [h, Nat.mod_self]

lemma negOne_emod {N : Nat} (hN : 0 < N) : (-1 : Int) % (N : Int) = (N : Int) - 1 := by
  have h : (-1 : Int) = ((N : Int) - 1) + (N : Int) * (-1) := by ring
  rw [h, Int.add_mul_emod_self_left]
  exact Int.emod_eq_of_lt (by omega) (by omega)

lemma rollIdx_zero {N a : Nat} (h : a < N) : rollIdx N a 0 = a := by
  unfold rollIdx pyMod
  rw [Int.sub_zero, Int.emod_eq_of_lt (by omega) (by omega)]
  exact Int.toNat_natCast a

lemma rollIdx_one {N a : Nat} (h : a < N) : rollIdx N a 1 = lft N a := by
  unfold rollIdx pyMod
  rcases Nat.eq_zero_or_pos a with rfl | ha
  · rw [show ((0 : Nat) : Int) - 1 = (-1 : Int) by ring, negOne_emod (by omega),
      lft_zero (by omega)]
    omega
  · rw [Int.emod_eq_of_lt (by omega) (by omega), lft_of_pos ha h]
    omega

lemma rollIdx_negOne {N a : Nat} (h : a < N) : rollIdx N a (-1) = rgt N a := by
  unfold rollIdx pyMod
  rcases Nat.lt_or_ge (a + 1) N with h1 | h1
  · rw [show ((a : Nat) : Int) - (-1) = ((a + 1 : Nat) : Int) by omega,
      Int.emod_eq_of_lt (by omega) (by omega), rgt_of_lt h1]
    omega
  · have h2 : a + 1 = N := by omega
    rw [show ((a : Nat) : Int) - (-1) = (N : Int) by omega, Int.emod_self,
      rgt_top h2]
    rfl

/-- For a non-negative first argument the shader's `wrap` is the plain
mathematical remainder. -/
lemma wrap_of_nonneg {a : Int} {N : Nat} (h0 : 0 ≤ a) (hN : 0 < N) :
    wrap a N = a % (N : Int) := by
  unfold wrap wgslRem
  have hN' : (0 : Int) ≤ (N : Int) := by omega
  have hm : 0 ≤ a % (N : Int) := Int.emod_nonneg a (by omega)
  rw [Int.tmod_eq_emod h0 hN', Int.tmod_eq_emod (by omega) hN']
  rw [show a % (N : Int) + (N : Int) = a % (N : Int) + (N : Int) * 1 by ring,
    Int.add_mul_emod_self_left, Int.emod_emod_of_dvd _ dvd_rfl]

lemma wrap_negOne {N : Nat} (hN : 0 < N) : wrap (-1) (N : Int) = (N : Int) - 1 := by
  unfold wrap wgslRem
  have ht : Int.tmod (-1) (N : Int) = -(Int.tmod 1 (N : Int)) := by
    rw [show (-1 : Int) = -(1 : Int) by ring, Int.tmod_def, Int.tmod_def, Int.neg_tdiv]
    ring
  rcases Nat.lt_or_ge 1 N with h1 | h1
  · have h2 : Int.tmod 1 (N : Int) = 1 := Int.tmod_eq_of_lt (by omega) (by omega)
    rw [ht, h2, show -(1 : Int) + (N : Int) = (N : Int) - 1 by ring,
      Int.tmod_eq_of_lt (by omega) (by omega)]
  · have h2 : N = 1 := by omega
    subst h2
    decide

lemma wrapToNat_zero {N x : Nat} (h : x < N) : (wrap ((x : Int) + 0) N).toNat = x := by
  rw [Int.add_zero, wrap_of_nonneg (by omega) (by omega),
    Int.emod_eq_of_lt (by omega) (by omega)]
  exact Int.toNat_natCast x

lemma wrapToNat_one {N x : Nat} (h : x < N) : (wrap ((x : Int) + 1) N).toNat = rgt N x := by
  rw [wrap_of_nonneg (by omega) (by omega)]
  rcases Nat.lt_or_ge (x + 1) N with h1 | h1
  · rw [Int.emod_eq_of_lt (by omega) (by omega), rgt_of_lt h1]
    omega
  · have h2 : x + 1 = N := by omega
    rw [show ((x : Nat) : Int) + 1 = (N : Int) by omega, Int.emod_self, rgt_top h2]
    rfl

lemma wrapToNat_negOne {N x : Nat} (h : x < N) :
    (wrap ((x : Int) + (-1)) N).toNat = lft N x := by
  rcases Nat.eq_zero_or_pos x with rfl | hx
  · rw [show ((0 : Nat) : Int) + (-1) = (-1 : Int) by ring, wrap_negOne (by omega),
      lft_zero (by omega)]
    omega
  · rw [wrap_of_nonneg (by omega) (by omega),
      Int.emod_eq_of_lt (by omega) (by omega), lft_of_pos hx h]
    omega

lemma flatten_read {N nx : Nat} (g : Grid) (hx : nx < N) (ny : Nat) :
    flatten N g (nx + ny * N) = g nx ny := by
  unfold flatten
  have hN : 0 < N := by omega
  rw [Nat.add_mul_mod_self_right, Nat.mod_eq_of_lt hx,
    Nat.add_mul_div_right _ _ hN, Nat.div_eq_of_lt hx, Nat.zero_add]

/-! ## The two neighbor counts both equal the spec's `live` -/

lemma neighborsCount_eq_specLive {N x y : Nat} (g : Grid)
    (hx : x < N) (hy : y < N) :
    neighborsCount N g x y = specLive N g x y := by
  unfold neighborsCount cpuOffsets
  simp only [List.map_cons, List.map_nil, List.sum_cons, List.sum_nil]
  rw [rollIdx_negOne hx, rollIdx_negOne hy, rollIdx_one hx, rollIdx_one hy,
    rollIdx_zero hx, rollIdx_zero hy]
  unfold specLive
  ring

lemma liveNeighbors_eq_specLive {N x y : Nat} (g : Grid)
    (hx : x < N) (hy : y < N) :
    liveNeighbors N (flatten N g) x y = specLive N g x y := by
  have hN : 0 < N := by omega
  unfold liveNeighbors gpuOffsets neighborIdx
  simp only [List.map_cons, List.map_nil, List.sum_cons, List.sum_nil]
  rw [wrapToNat_negOne hx, wrapToNat_negOne hy, wrapToNat_one hx, wrapToNat_one hy,
    wrapToNat_zero hx, wrapToNat_zero hy]
  simp only [flatten_read g (lft_lt hN x), flatten_read g (rgt_lt hN x),
    flatten_read g hx]
  unfold specLive
  ring

/-! ## Cell rule bridging -/

lemma conwayCell_01 (s c : Nat) : conwayCell s c = 0 ∨ conwayCell s c = 1 := by
  unfold conwayCell
  by_cases h3 : c = 3
  · simp [h3]
  · by_cases h2 : c = 2
    · simp [h3, h2, Nat.and_one_is_mod]
      omega
    · simp [h3, h2]

lemma gpuCell_01 (s c : Nat) : gpuCell s c = 0 ∨ gpuCell s c = 1 := by
  unfold gpuCell
  by_cases ha : s = 1 ∧ (c = 2 ∨ c = 3)
  · simp [ha]
  · by_cases hb : s = 0 ∧ c = 3 <;> simp [ha, hb]

lemma conwayCell_eq_rule (c : Nat) {s : Nat} (hs : s = 0 ∨ s = 1) :
    conwayCell s c = if c = 3 ∨ (s = 1 ∧ c = 2) then 1 else 0 := by
  unfold conwayCell
  by_cases h3 : c = 3
  · subst h3
    rcases hs with rfl | rfl <;> decide
  · by_cases h2 : c = 2
    · subst h2
      rcases hs with rfl | rfl <;> decide
    · rcases hs with rfl | rfl <;> simp [h3, h2]

lemma gpuCell_eq_rule (c : Nat) {s : Nat} (hs : s = 0 ∨ s = 1) :
    gpuCell s c = if c = 3 ∨ (s = 1 ∧ c = 2) then 1 else 0 := by
  unfold gpuCell
  by_cases h3 : c = 3
  · subst h3
    rcases hs with rfl | rfl <;> decide
  · by_cases h2 : c = 2
    · subst h2
      rcases hs with rfl | rfl <;> decide
    · rcases hs with rfl | rfl <;> simp [h3, h2]

/-! ## The two updates both implement the spec's rule -/

lemma cpuUpdate_eq_specNext {N x y : Nat} {g : Grid} (h01 : Cells01 N g)
    (hx : x < N) (hy : y < N) :
    cpuUpdate N g x y = specNext N g x y := by
  unfold cpuUpdate specNext
  rw [neighborsCount_eq_specLive g hx hy,
    conwayCell_eq_rule (specLive N g x y) (h01 x y hx hy)]

lemma gpuUpdate_eq_specNext {N x y : Nat} {g : Grid} (h01 : Cells01 N g)
    (hx : x < N) (hy : y < N) :
    gpuUpdate N g x y = specNext N g x y := by
  unfold gpuUpdate gpuKernel
  rw [if_neg (by omega)]
  show gpuCell (flatten N g (x + y * N)) (liveNeighbors N (flatten N g) x y) = _
  rw [flatten_read g hx y, liveNeighbors_eq_specLive g hx hy,
    gpuCell_eq_rule (specLive N g x y) (h01 x y hx hy)]
  rfl

/-! ## Claim theorems -/

/-- **C1**: For every N ≥ 1 and every N×N grid whose cells are all 0 or 1,
both the CPU update (`ConwayUpdate.update`) and the GPU kernel (the shader of
`get_shader_code`) produce, at every in-range cell (x, y), exactly the spec's
value: 1 when the sum of the 8 toroidally-wrapped neighbors is 3, or the cell
is 1 and that sum is 2; otherwise 0. -/
theorem C1_updates_implement_life_rule {N : Nat} (g : Grid) (hN : 1 ≤ N)
    (h01 : Cells01 N g) :
    ∀ x y, x < N → y < N →
      cpuUpdate N g x y = specNext N g x y ∧
      gpuUpdate N g x y = specNext N g x y := by
  intro x y hx hy
  exact ⟨cpuUpdate_eq_specNext h01 hx hy, gpuUpdate_eq_specNext h01 hx hy⟩

/-- Witness for C1: N = 3 with the diagonal 0/1 grid, at cell (1, 1). -/
theorem C1_witness :
    cpuUpdate 3 (fun x y => if x = y then 1 else 0) 1 1 =
      specNext 3 (fun x y => if x = y then 1 else 0) 1 1 ∧
    gpuUpdate 3 (fun x y => if x = y then 1 else 0) 1 1 =
      specNext 3 (fun x y => if x = y then 1 else 0) 1 1 :=
  C1_updates_implement_life_rule (fun x y => if x = y then 1 else 0)
    (by decide)
    (fun x y _ _ => by by_cases h : x = y <;> simp [h])
    1 1 (by decide) (by decide)

/-- **C2**: For every N ≥ 1 and every N×N grid of 0/1 cells, the GPU kernel
update and the CPU reference update produce bit-identical outputs
cell-for-cell. -/
theorem C2_gpu_matches_cpu {N : Nat} (g : Grid) (hN : 1 ≤ N)
    (h01 : Cells01 N g) :
    ∀ x y, x < N → y < N → gpuUpdate N g x y = cpuUpdate N g x y := by
  intro x y hx hy
  rw [gpuUpdate_eq_specNext h01 hx hy, cpuUpdate_eq_specNext h01 hx hy]

/-- Witness for C2: N = 2 with the all-ones grid, at cell (0, 1). -/
theorem C2_witness :
    gpuUpdate 2 (fun _ _ => 1) 0 1 = cpuUpdate 2 (fun _ _ => 1) 0 1 :=
  C2_gpu_matches_cpu (fun _ _ => 1) (by decide)
    (fun _ _ _ _ => Or.inr rfl) 0 1 (by decide) (by decide)

/-- **C3**: the buffer pair for generation t reads A and writes B when t is
even, reads B and writes A when t is odd; consequently the read buffer at
generation t+2 is physically the same buffer as at generation t. -/
theorem C3_buffer_parity (t : Nat) :
    (t % 2 = 0 → pairFor t = (Buf.A, Buf.B)) ∧
    (t % 2 = 1 → pairFor t = (Buf.B, Buf.A)) ∧
    readBuf (t + 2) = readBuf t := by
  unfold readBuf pairFor
  rcases Nat.mod_two_eq_zero_or_one t with h | h <;>
    simp [h, Nat.add_mod_right]

/-- Witness for C3 at t = 4. -/
theorem C3_witness : pairFor 4 = (Buf.A, Buf.B) ∧ readBuf 6 = readBuf 4 :=
  ⟨(C3_buffer_parity 4).1 (by decide), (C3_buffer_parity 4).2.2⟩

/-- **C4**: after the engine's reset with a freshly drawn grid — regardless of
the generation count before — buffer A holds exactly that grid, buffer B is
all zeros, the generation counter is 0, and parity 0 designates A as the read
source for the next dispatch. -/
theorem C4_reset_state (s : EngineState) (newGrid : Nat → Nat) :
    (controllerReset s newGrid).bufA = newGrid ∧
    (∀ i, (controllerReset s newGrid).bufB i = 0) ∧
    (controllerReset s newGrid).iteration = 0 ∧
    readBuf (controllerReset s newGrid).iteration = Buf.A :=
  ⟨rfl, fun _ => rfl, rfl, rfl⟩

/-- **C8**: the dispatch issues exactly ceil(N/8) × ceil(N/8) workgroups of
8 × 8 invocations, which cover the grid; an invocation whose global id is out
of range on either axis performs no write; every other invocation writes
exactly one cell, at the in-bounds linear offset x + y*N. -/
theorem C8_dispatch_bounds (N : Nat) (inS : Nat → Nat) :
    (N ≤ gridExtent N ∧ gridExtent N < N + 8) ∧
    (∀ x y, (N ≤ x ∨ N ≤ y) → gpuKernel N inS x y = none) ∧
    (∀ x y, x < N → y < N →
      gpuKernel N inS x y =
        some (x + y * N, gpuCell (inS (x + y * N)) (liveNeighbors N inS x y)) ∧
      x + y * N < N * N) := by
  refine ⟨⟨?_, ?_⟩, ?_, ?_⟩
  · unfold gridExtent numWorkgroups
    omega
  · unfold gridExtent numWorkgroups
    omega
  · intro x y h
    unfold gpuKernel
    rw [if_pos h]
  · intro x y hx hy
    refine ⟨?_, ?_⟩
    · unfold gpuKernel
      rw [if_neg (by omega)]
    · calc x + y * N < N + y * N := by omega
        _ = (y + 1) * N := by ring
        _ ≤ N * N := Nat.mul_le_mul_right N (by omega)

/-- Witness for C8: N = 5, out-of-range invocation (7, 0) writes nothing;
invocation (1, 2) writes cell 11 < 25. -/
theorem C8_witness :
    gpuKernel 5 (fun _ => 1) 7 0 = none ∧
    (gpuKernel 5 (fun _ => 1) 1 2 =
       some (1 + 2 * 5,
         gpuCell ((fun _ => 1) (1 + 2 * 5))
           (liveNeighbors 5 (fun _ => 1) 1 2)) ∧
     1 + 2 * 5 < 5 * 5) :=
  ⟨(C8_dispatch_bounds 5 (fun _ => 1)).2.1 7 0 (by decide),
   (C8_dispatch_bounds 5 (fun _ => 1)).2.2 1 2 (by decide) (by decide)⟩

/-- **C5** counterexample: the claim demands that `initialize`/`reset` fail
synchronously when the grid dimension is ≤ 0 or the probability is outside
[0, 1]. In the GPU path they do not: `__init__` with dimension 0 and
probability 2 seeds successfully (and a negative dimension also succeeds,
with dimension² cells), because neither `GPUSimulationModel.__init__` nor
webgpu.py's `RandomInit.rule` checks anything. -/
theorem C5_counterexample :
    gpuModelInit 2 0 (fun _ => 0) = Except.ok [] ∧
    gpuModelInit 2 (-3) (fun _ => 1) =
      Except.ok [1, 1, 1, 1, 1, 1, 1, 1, 1] := by
  constructor <;> rfl

/-- **C5** amended: the GPU path performs no configuration validation at all:
for every probability p (also outside [0, 1]) and every grid dimension
(also ≤ 0), `initialize`'s seeding succeeds and returns (size²).toNat cells,
each 0 or 1; no device-level call is ever preceded by a validation error. -/
theorem C5_amended_no_validation (p : ℚ) (size : Int) (rng : Nat → Nat) :
    ∃ l, gpuModelInit p size rng = Except.ok l ∧
      l.length = (size * size).toNat ∧ ∀ v ∈ l, v = 0 ∨ v = 1 := by
  refine ⟨_, rfl, by simp [gpuModelInit, gpuRandomInit], ?_⟩
  intro v hv
  simp only [gpuModelInit, gpuRandomInit, List.mem_map, List.mem_range] at hv
  obtain ⟨i, _, rfl⟩ := hv
  omega

/-- **C6** counterexample: in the GPU path, seeding with p = 1 does not yield
the all-ones grid: webgpu.py's `RandomInit.rule` ignores p, so an rng stream
drawing 0 gives a dead cell. -/
theorem C6_counterexample :
    gpuRandomInit 1 1 (fun _ => 0) = Except.ok [0] := rfl

/-- **C6** amended: the CPU path seeds as claimed — for p in [0, 1] each cell
is drawn independently, alive exactly when its uniform draw from [0, 1) is at
least 1 - p (hence alive with probability p; p = 1 gives all ones and p = 0
all zeros) — but the GPU path ignores p entirely and draws each cell
uniformly from {0, 1} as the low bit of the integer rng stream. -/
theorem C6_amended_seeding (p : ℚ) (size : Nat × Nat) (u : Nat → ℚ)
    (hu : ∀ i, 0 ≤ u i ∧ u i < 1) (h0 : 0 ≤ p) (h1 : p ≤ 1) :
    cpuRandomInit p size u =
      Except.ok ((List.range (size.1 * size.2)).map
        (fun i => if u i < 1 - p then 0 else 1)) ∧
    (p = 1 → cpuRandomInit p size u =
      Except.ok ((List.range (size.1 * size.2)).map (fun _ => 1))) ∧
    (p = 0 → cpuRandomInit p size u =
      Except.ok ((List.range (size.1 * size.2)).map (fun _ => 0))) ∧
    (∀ (q : ℚ) (sz : Int) (rng : Nat → Nat),
      gpuRandomInit p sz rng = gpuRandomInit q sz rng ∧
      gpuRandomInit p sz rng =
        Except.ok ((List.range (sz * sz).toNat).map (fun i => rng i % 2))) := by
  have hok : ¬(p < 0 ∨ 1 < p) := by
    push_neg
    exact ⟨h0, h1⟩
  refine ⟨by rw [cpuRandomInit, if_neg hok], ?_, ?_, fun q sz rng => ⟨rfl, rfl⟩⟩
  · intro hp
    subst hp
    rw [cpuRandomInit, if_neg hok]
    congr 1
    congr 1
    funext i
    rw [if_neg (by have := (hu i).1; simp only [sub_self]; linarith)]
  · intro hp
    subst hp
    rw [cpuRandomInit, if_neg hok]
    congr 1
    congr 1
    funext i
    rw [if_pos (by have := (hu i).2; simpa using this)]

/-- Witness for the amended C6: p = 1/2 on a 1×2 grid with uniform draws
1/4 < 1 - p gives two dead cells. -/
theorem C6_witness :
    cpuRandomInit (1/2) (1, 2) (fun _ => 1/4) = Except.ok [0, 0] := by
  have h := (C6_amended_seeding (1/2) (1, 2) (fun _ => 1/4)
    (fun i => ⟨by norm_num, by norm_num⟩) (by norm_num) (by norm_num)).1
  rw [h]
  norm_num [List.range_succ]

/-! ## Order-independence of the reference update (C7) -/

lemma orderedUpdate_fst (N : Nat) (g out0 : Grid) (order : List (Nat × Nat)) :
    (orderedUpdate N g out0 order).1 = g := by
  induction order generalizing out0 with
  | nil => rfl
  | cons p o ih =>
    show (orderedUpdate N g (writeCell out0 p.1 p.2 _) o).1 = g
    exact ih _

lemma orderedUpdate_snd (N : Nat) (g out0 : Grid) (order : List (Nat × Nat))
    (x y : Nat) :
    (orderedUpdate N g out0 order).2 x y =
      if (x, y) ∈ order then cpuUpdate N g x y else out0 x y := by
  induction order generalizing out0 with
  | nil => simp [orderedUpdate]
  | cons p o ih =>
    show (orderedUpdate N g (writeCell out0 p.1 p.2
      (conwayCell (g p.1 p.2) (neighborsCount N g p.1 p.2))) o).2 x y = _
    rw [ih]
    by_cases hmem : (x, y) ∈ o
    · rw [if_pos hmem, if_pos (List.mem_cons_of_mem _ hmem)]
    · rw [if_neg hmem]
      by_cases hp : (x, y) = p
      · subst hp
        rw [if_pos (List.mem_cons_self _ _)]
        unfold writeCell
        rw [if_pos ⟨rfl, rfl⟩]
        rfl
      · rw [if_neg (by rw [List.mem_cons]; push_neg; exact ⟨hp, hmem⟩)]
        unfold writeCell
        rw [if_neg (by rw [Prod.ext_iff] at hp; tauto)]

/-- **C7**: the reference update reads only the input generation. In the
order-explicit form of `ConwayUpdate.update` — output written cell by cell,
each value computed from the input buffer — the input buffer is returned
unchanged, cells never processed keep their prior output value (each
processed cell is written only when visited), and every processed cell ends
with the pure update's value whatever the processing order, so the result is
independent of the assumed iteration order. -/
theorem C7_input_preserved_order_independent (N : Nat) (g out0 : Grid)
    (order : List (Nat × Nat)) :
    (orderedUpdate N g out0 order).1 = g ∧
    (∀ x y, (x, y) ∈ order →
      (orderedUpdate N g out0 order).2 x y = cpuUpdate N g x y) ∧
    (∀ x y, (x, y) ∉ order →
      (orderedUpdate N g out0 order).2 x y = out0 x y) := by
  refine ⟨orderedUpdate_fst N g out0 order, ?_, ?_⟩
  · intro x y hmem
    rw [orderedUpdate_snd, if_pos hmem]
  · intro x y hmem
    rw [orderedUpdate_snd, if_neg hmem]

/-- Witness for C7: N = 2, all-ones input, two different processing orders,
checked at cell (0, 1). -/
theorem C7_witness :
    (orderedUpdate 2 (fun _ _ => 1) (fun _ _ => 7)
       [(0, 0), (1, 1), (0, 1), (1, 0)]).2 0 1 =
      cpuUpdate 2 (fun _ _ => 1) 0 1 ∧
    (orderedUpdate 2 (fun _ _ => 1) (fun _ _ => 7)
       [(1, 0), (0, 1), (1, 1), (0, 0)]).2 0 1 =
      cpuUpdate 2 (fun _ _ => 1) 0 1 :=
  ⟨(C7_input_preserved_order_independent 2 (fun _ _ => 1) (fun _ _ => 7)
      [(0, 0), (1, 1), (0, 1), (1, 0)]).2.1 0 1 (by decide),
   (C7_input_preserved_order_independent 2 (fun _ _ => 1) (fun _ _ => 7)
      [(1, 0), (0, 1), (1, 1), (0, 0)]).2.1 0 1 (by decide)⟩

/-- **C10**: every cell value the engine produces stays in {0, 1}: outputs of
the CPU update and of the GPU kernel on a 0/1 grid, and every cell produced
by either seeding rule. -/
theorem C10_values_stay_01 (N : Nat) (g : Grid) (h01 : Cells01 N g) :
    (∀ x y, x < N → y < N →
      (cpuUpdate N g x y = 0 ∨ cpuUpdate N g x y = 1) ∧
      (gpuUpdate N g x y = 0 ∨ gpuUpdate N g x y = 1)) ∧
    (∀ (p : ℚ) (size : Nat × Nat) (u : Nat → ℚ) (l : List Nat),
      cpuRandomInit p size u = Except.ok l → ∀ v ∈ l, v = 0 ∨ v = 1) ∧
    (∀ (p : ℚ) (size : Int) (rng : Nat → Nat) (l : List Nat),
      gpuRandomInit p size rng = Except.ok l → ∀ v ∈ l, v = 0 ∨ v = 1) := by
  refine ⟨?_, ?_, ?_⟩
  · intro x y hx hy
    refine ⟨conwayCell_01 _ _, ?_⟩
    unfold gpuUpdate gpuKernel
    rw [if_neg (by omega)]
    exact gpuCell_01 _ _
  · intro p size u l hl v hv
    unfold cpuRandomInit at hl
    by_cases hp : p < 0 ∨ 1 < p
    · rw [if_pos hp] at hl
      exact absurd hl (by simp)
    · rw [if_neg hp] at hl
      injection hl with hl
      subst hl
      simp only [List.mem_map, List.mem_range] at hv
      obtain ⟨i, _, rfl⟩ := hv
      by_cases h : u i < 1 - p <;> simp [h]
  · intro p size rng l hl v hv
    unfold gpuRandomInit at hl
    injection hl with hl
    subst hl
    simp only [List.mem_map, List.mem_range] at hv
    obtain ⟨i, _, rfl⟩ := hv
    omega

/-- Witness for C10: N = 1 all-ones grid at (0, 0); GPU seeding at size 1. -/
theorem C10_witness :
    (cpuUpdate 1 (fun _ _ => 1) 0 0 = 0 ∨ cpuUpdate 1 (fun _ _ => 1) 0 0 = 1) ∧
    (gpuUpdate 1 (fun _ _ => 1) 0 0 = 0 ∨ gpuUpdate 1 (fun _ _ => 1) 0 0 = 1) ∧
    (∀ v ∈ [0], v = 0 ∨ v = 1) :=
  ⟨((C10_values_stay_01 1 (fun _ _ => 1) (fun _ _ _ _ => Or.inr rfl)).1
      0 0 (by decide) (by decide)).1,
   ((C10_values_stay_01 1 (fun _ _ => 1) (fun _ _ _ _ => Or.inr rfl)).1
      0 0 (by decide) (by decide)).2,
   (C10_values_stay_01 1 (fun _ _ => 1) (fun _ _ _ _ => Or.inr rfl)).2.2
      1 1 (fun _ => 0) [0] rfl⟩

/-! ## Blinker lemmas (C9) -/

lemma blinkH01 (x y : Nat) : blinkH x y = 0 ∨ blinkH x y = 1 := by
  unfold blinkH
  by_cases h : y = 2 ∧ (x = 1 ∨ x = 2 ∨ x = 3) <;> simp [h]

lemma blinkH_row {b : Nat} (h : b ≠ 2) (a : Nat) : blinkH a b = 0 := by
  unfold blinkH
  rw [if_neg (by omega)]

lemma blinkH_col {a : Nat} (h : ¬(a = 1 ∨ a = 2 ∨ a = 3)) (b : Nat) :
    blinkH a b = 0 := by
  unfold blinkH
  rw [if_neg (by omega)]

lemma lft_cases {N a : Nat} (hN : 0 < N) (ha : a < N) :
    (lft N a = a - 1 ∧ 1 ≤ a) ∨ (lft N a = N - 1 ∧ a = 0) := by
  rcases Nat.eq_zero_or_pos a with rfl | h
  · exact Or.inr ⟨lft_zero hN, rfl⟩
  · exact Or.inl ⟨lft_of_pos h ha, h⟩

lemma rgt_cases {N a : Nat} (ha : a < N) :
    (rgt N a = a + 1 ∧ a + 1 < N) ∨ (rgt N a = 0 ∧ a + 1 = N) := by
  rcases Nat.lt_or_ge (a + 1) N with h | h
  · exact Or.inl ⟨rgt_of_lt h, h⟩
  · have h2 : a + 1 = N := by omega
    exact Or.inr ⟨rgt_top h2, h2⟩

lemma specLive_blinkH_out_row {N x y : Nat} (hN : 5 ≤ N) (hy : y < N)
    (h : ¬(y = 1 ∨ y = 2 ∨ y = 3)) : specLive N blinkH x y = 0 := by
  have hl : lft N y ≠ 2 := by
    rcases lft_cases (by omega) hy with ⟨he, h1⟩ | ⟨he, h1⟩ <;> omega
  have hr : rgt N y ≠ 2 := by
    rcases rgt_cases hy with ⟨he, h1⟩ | ⟨he, h1⟩ <;> omega
  have hy2 : y ≠ 2 := by omega
  unfold specLive
  simp only [blinkH_row hl, blinkH_row hr, blinkH_row hy2]

lemma specLive_blinkH_out_col {N x y : Nat} (hN : 5 ≤ N) (hx : x < N)
    (h : 5 ≤ x) : specLive N blinkH x y = 0 := by
  have hl : ¬(lft N x = 1 ∨ lft N x = 2 ∨ lft N x = 3) := by
    rcases lft_cases (by omega) hx with ⟨he, h1⟩ | ⟨he, h1⟩ <;> omega
  have hr : ¬(rgt N x = 1 ∨ rgt N x = 2 ∨ rgt N x = 3) := by
    rcases rgt_cases hx with ⟨he, h1⟩ | ⟨he, h1⟩ <;> omega
  have hx3 : ¬(x = 1 ∨ x = 2 ∨ x = 3) := by omega
  unfold specLive
  simp only [blinkH_col hl, blinkH_col hr, blinkH_col hx3]

/-- One spec-rule step turns the canonical horizontal blinker into the
canonical vertical one, on every torus of dimension at least 5. -/
lemma stepH {N x y : Nat} (hN : 5 ≤ N) (hx : x < N) (hy : y < N) :
    specNext N blinkH x y = blinkV x y := by
  by_cases hyr : y = 1 ∨ y = 2 ∨ y = 3
  · by_cases hxr : x < 5
    · have l0 : lft N 0 = N - 1 := lft_zero (by omega)
      have l1 : lft N 1 = 0 := by rw [lft_of_pos (by omega) (by omega)]
      have l2 : lft N 2 = 1 := by rw [lft_of_pos (by omega) (by omega)]
      have l3 : lft N 3 = 2 := by rw [lft_of_pos (by omega) (by omega)]
      have l4 : lft N 4 = 3 := by rw [lft_of_pos (by omega) (by omega)]
      have r0 : rgt N 0 = 1 := rgt_of_lt (by omega)
      have r1 : rgt N 1 = 2 := rgt_of_lt (by omega)
      have r2 : rgt N 2 = 3 := rgt_of_lt (by omega)
      have r3 : rgt N 3 = 4 := rgt_of_lt (by omega)
      have hbig : ∀ b, blinkH (N - 1) b = 0 := fun b => @blinkH_col (N - 1) (by omega) b
      have hr4 : ∀ b, blinkH (rgt N 4) b = 0 := by
        intro b
        rcases @rgt_cases N 4 (by omega) with ⟨he, h1⟩ | ⟨he, h1⟩ <;>
          rw [he] <;> exact blinkH_col (by omega) b
      interval_cases x <;> rcases hyr with rfl | rfl | rfl <;>
        simp only [specNext, specLive, l0, l1, l2, l3, l4, r0, r1, r2, r3] <;>
        (try simp only [hbig, hr4]) <;>
        simp [blinkH, blinkV]
    · unfold specNext
      rw [specLive_blinkH_out_col hN hx (by omega),
        blinkH_col (by omega) y, if_neg (by simp)]
      unfold blinkV
      rw [if_neg (by omega)]
  · unfold specNext
    rw [specLive_blinkH_out_row hN hy hyr, if_neg (by simp), blinkV,
      if_neg (by omega)]

lemma specLive_transpose (N : Nat) (g : Grid) (x y : Nat) :
    specLive N (transposeG g) x y = specLive N g y x := by
  unfold specLive transposeG
  ring

lemma specNext_transpose (N : Nat) (g : Grid) (x y : Nat) :
    specNext N (transposeG g) x y = specNext N g y x := by
  unfold specNext
  rw [specLive_transpose]
  rfl

/-- One spec-rule step turns the canonical vertical blinker back into the
canonical horizontal one. -/
lemma stepV {N x y : Nat} (hN : 5 ≤ N) (hx : x < N) (hy : y < N) :
    specNext N blinkV x y = blinkH x y := by
  have hbv : specNext N blinkV x y = specNext N (transposeG blinkH) x y := rfl
  rw [hbv, specNext_transpose, stepH hN hy hx]
  rfl

lemma shift_lft (N x dx : Nat) : lft N ((x + dx) % N) = (lft N x + dx) % N := by
  unfold lft
  rw [Nat.mod_add_mod, Nat.mod_add_mod]
  congr 1
  omega

lemma shift_rgt (N x dx : Nat) : rgt N ((x + dx) % N) = (rgt N x + dx) % N := by
  unfold rgt
  rw [Nat.mod_add_mod, Nat.mod_add_mod]
  congr 1
  omega

/-- The spec-rule step commutes with toroidal translation. -/
lemma specLive_shift (N dx dy : Nat) (g : Grid) (x y : Nat) :
    specLive N (shiftG N dx dy g) x y =
      specLive N g ((x + dx) % N) ((y + dy) % N) := by
  unfold specLive shiftG
  rw [shift_lft, shift_lft, shift_rgt, shift_rgt]

lemma specNext_shift (N dx dy : Nat) (g : Grid) (x y : Nat) :
    specNext N (shiftG N dx dy g) x y =
      specNext N g ((x + dx) % N) ((y + dy) % N) := by
  unfold specNext
  rw [specLive_shift]
  rfl

/-- The step at an in-range cell depends only on the in-range values of the
grid (all reads are wrapped). -/
lemma specNext_congr {N x y : Nat} {g h : Grid}
    (hgh : ∀ a b, a < N → b < N → g a b = h a b) (hN : 0 < N)
    (hx : x < N) (hy : y < N) : specNext N g x y = specNext N h x y := by
  unfold specNext specLive
  rw [hgh _ _ (lft_lt hN x) (lft_lt hN y), hgh _ _ hx (lft_lt hN y),
    hgh _ _ (rgt_lt hN x) (lft_lt hN y), hgh _ _ (lft_lt hN x) hy,
    hgh _ _ (rgt_lt hN x) hy, hgh _ _ (lft_lt hN x) (rgt_lt hN y),
    hgh _ _ hx (rgt_lt hN y), hgh _ _ (rgt_lt hN x) (rgt_lt hN y),
    hgh _ _ hx hy]

/-- Undo a toroidal shift: the cell that a shift by `d` maps onto `a`. -/
lemma unshift {N a d : Nat} (hN : 0 < N) (ha : a < N) :
    ((a + N - d % N) % N + d) % N = a := by
  have hd : d % N < N := Nat.mod_lt _ hN
  have h1 : ((a + N - d % N) % N + d) % N =
      ((a + N - d % N) % N + d % N) % N := by
    rw [Nat.add_mod, Nat.mod_mod_of_dvd _ dvd_rfl]
  rw [h1, Nat.mod_add_mod, show a + N - d % N + d % N = a + N by omega,
    Nat.add_mod_right, Nat.mod_eq_of_lt ha]

/-- **C9**: on every torus of dimension N ≥ 5, a grid that is exactly a
horizontal 3-cell blinker (any toroidal translate of the canonical one,
which covers every position of three horizontally adjacent live cells) is
mapped by one update — CPU and GPU alike — to the vertical blinker centered
on the same middle cell, is mapped back to the original grid by two
consecutive updates, and is not left unchanged by a single update. -/
theorem C9_blinker_oscillates {N dx dy : Nat} (hN : 5 ≤ N) :
    (∀ x y, x < N → y < N →
      cpuUpdate N (shiftG N dx dy blinkH) x y = shiftG N dx dy blinkV x y ∧
      gpuUpdate N (shiftG N dx dy blinkH) x y = shiftG N dx dy blinkV x y) ∧
    (∀ x y, x < N → y < N →
      cpuUpdate N (cpuUpdate N (shiftG N dx dy blinkH)) x y =
        shiftG N dx dy blinkH x y) ∧
    (∃ x y, x < N ∧ y < N ∧
      cpuUpdate N (shiftG N dx dy blinkH) x y ≠ shiftG N dx dy blinkH x y) := by
  have hN0 : 0 < N := by omega
  have h01H : Cells01 N (shiftG N dx dy blinkH) := fun x y _ _ => blinkH01 _ _
  have hcpu : ∀ x y, x < N → y < N →
      cpuUpdate N (shiftG N dx dy blinkH) x y = shiftG N dx dy blinkV x y := by
    intro x y hx hy
    rw [cpuUpdate_eq_specNext h01H hx hy, specNext_shift]
    exact stepH hN (Nat.mod_lt _ hN0) (Nat.mod_lt _ hN0)
  refine ⟨?_, ?_, ?_⟩
  · intro x y hx hy
    refine ⟨hcpu x y hx hy, ?_⟩
    rw [gpuUpdate_eq_specNext h01H hx hy, specNext_shift]
    exact stepH hN (Nat.mod_lt _ hN0) (Nat.mod_lt _ hN0)
  · intro x y hx hy
    have h01G1 : Cells01 N (cpuUpdate N (shiftG N dx dy blinkH)) :=
      fun a b _ _ => conwayCell_01 _ _
    rw [cpuUpdate_eq_specNext h01G1 hx hy,
      specNext_congr hcpu hN0 hx hy, specNext_shift]
    exact stepV hN (Nat.mod_lt _ hN0) (Nat.mod_lt _ hN0)
  · refine ⟨(2 + N - dx % N) % N, (1 + N - dy % N) % N,
      Nat.mod_lt _ hN0, Nat.mod_lt _ hN0, ?_⟩
    rw [hcpu _ _ (Nat.mod_lt _ hN0) (Nat.mod_lt _ hN0)]
    unfold shiftG
    rw [unshift hN0 (by omega), unshift hN0 (by omega)]
    decide

/-- Witness for C9: N = 5 with the untranslated blinker, checked at (2, 1). -/
theorem C9_witness :
    (cpuUpdate 5 (shiftG 5 0 0 blinkH) 2 1 = shiftG 5 0 0 blinkV 2 1 ∧
     gpuUpdate 5 (shiftG 5 0 0 blinkH) 2 1 = shiftG 5 0 0 blinkV 2 1) ∧
    cpuUpdate 5 (cpuUpdate 5 (shiftG 5 0 0 blinkH)) 2 1 =
      shiftG 5 0 0 blinkH 2 1 ∧
    (∃ x y, x < 5 ∧ y < 5 ∧
      cpuUpdate 5 (shiftG 5 0 0 blinkH) x y ≠ shiftG 5 0 0 blinkH x y) :=
  ⟨(@C9_blinker_oscillates 5 0 0 (by decide)).1 2 1 (by decide) (by decide),
   (@C9_blinker_oscillates 5 0 0 (by decide)).2.1 2 1 (by decide) (by decide),
   (@C9_blinker_oscillates 5 0 0 (by decide)).2.2⟩

end Automata
